import Mathlib

/-!
Verification of `finanzen_fundamentals/stocks.py`.

This file gives a shallow embedding of the pure parts of the scraper:
ISIN pattern search, URL construction, localized numeric normalization,
table parsing with its `dict(zip(...))` semantics, and the page-level
orchestrators `get_fundamentals`, `get_chart_infos`, `get_estimates`
(cell pipeline), `get_estimates_lxml` and `get_fundamentals_lxml`.

Python floats are modelled as rationals (`ℚ`): all numeric strings in
scope are finite decimal literals, on which `float` is exact up to
rounding, and no arithmetic is performed on the values.  HTML documents
are modelled as structures carrying exactly the pieces the functions
inspect (headings, `th`/`td` texts, `og:title` metadata, the error box).
-/

set_option allowUnsafeReducibility true

attribute [semireducible] Rat.add Rat.mul Rat.inv Rat.div

deriving instance DecidableEq for Except

namespace Stocks

/-! ### Character classes of the regexes

`parse_for_isin` uses the pattern `[a-zA-Z]{2}[A-Z0-9]{9}\d`
(`stocks.py` line 19).  We model the three character classes over ASCII:
`Char.isAlpha` is exactly `[a-zA-Z]`, `Char.isUpper` exactly `[A-Z]`,
`Char.isDigit` exactly `[0-9]`. -/

/-- The class `[A-Z0-9]` of the ISIN pattern: uppercase letter or digit. -/
def isUpperAlnum (c : Char) : Bool :=
  c.isUpper || c.isDigit

/-- Test an optional character (an indexing result) against a class;
an out-of-range index means the pattern cannot match. -/
def checkO (o : Option Char) (p : Char → Bool) : Bool :=
  match o with
  | none => false
  | some c => p c

/-- Whether the ISIN pattern `[a-zA-Z]{2}[A-Z0-9]{9}\d` matches at the
start of the character list (`stocks.py` line 19). -/
def isinMatchAt (cs : List Char) : Bool :=
  checkO cs[0]? Char.isAlpha && checkO cs[1]? Char.isAlpha &&
  checkO cs[2]? isUpperAlnum && checkO cs[3]? isUpperAlnum &&
  checkO cs[4]? isUpperAlnum && checkO cs[5]? isUpperAlnum &&
  checkO cs[6]? isUpperAlnum && checkO cs[7]? isUpperAlnum &&
  checkO cs[8]? isUpperAlnum && checkO cs[9]? isUpperAlnum &&
  checkO cs[10]? isUpperAlnum && checkO cs[11]? Char.isDigit

/-- `re.search` of the ISIN pattern: scan left to right, return the
leftmost match.  Every match of the pattern has exactly 12 characters,
hence `take 12`. -/
def searchIsin : List Char → Option (List Char)
  | [] => none
  | c :: cs => if isinMatchAt (c :: cs) then some ((c :: cs).take 12) else searchIsin cs

/-- `parse_for_isin` (`stocks.py` lines 16-25): return the first
substring matching the ISIN pattern, `None` if the pattern is absent. -/
def parse_for_isin (s : String) : Option String :=
  (searchIsin s.data).map (fun cs => String.mk cs)

/-- Whether a string is, as a whole, a match of the code's ISIN pattern
(12 characters and the pattern matches at position 0). -/
def isinWhole (s : String) : Bool :=
  s.data.length == 12 && isinMatchAt s.data

/-- Modelled from the spec: the spec describes the ISIN pattern as
"2 letters, 9 alphanumeric characters, 1 digit"; its middle class is
general alphanumeric (`Char.isAlphanum`), unlike the code's `[A-Z0-9]`.
Kept for comparison with `isinMatchAt`. -/
def specIsinMatchAt (cs : List Char) : Bool :=
  checkO cs[0]? Char.isAlpha && checkO cs[1]? Char.isAlpha &&
  checkO cs[2]? Char.isAlphanum && checkO cs[3]? Char.isAlphanum &&
  checkO cs[4]? Char.isAlphanum && checkO cs[5]? Char.isAlphanum &&
  checkO cs[6]? Char.isAlphanum && checkO cs[7]? Char.isAlphanum &&
  checkO cs[8]? Char.isAlphanum && checkO cs[9]? Char.isAlphanum &&
  checkO cs[10]? Char.isAlphanum && checkO cs[11]? Char.isDigit

/-- Modelled from the spec: some position of the string starts a match
of the spec's ISIN pattern. -/
def specHasIsin : List Char → Bool
  | [] => false
  | c :: cs => specIsinMatchAt (c :: cs) || specHasIsin cs

/-! ### URL construction -/

/-- The ISIN search endpoint prefix (`stocks.py` line 33). -/
def searchEndpoint : String :=
  "https://www.finanzen.net/suchergebnis.asp?_search="

/-- `join_url` (`stocks.py` lines 28-35): append the search value to the
base URL, but switch to the ISIN search endpoint when the search value
contains an ISIN. -/
def join_url (url : String) (search_value : String) : String × Option String :=
  let isin := parse_for_isin search_value
  let url1 := url ++ search_value
  match isin with
  | some _ => (searchEndpoint ++ search_value, isin)
  | none => (url1, isin)

/-- Model of Python `str.lower` on ASCII strings. -/
def lowerString (s : String) : String :=
  String.mk (s.data.map Char.toLower)

/-- Model of Python `str.upper` on ASCII strings. -/
def upperString (s : String) : String :=
  String.mk (s.data.map Char.toUpper)

/-- The URL and ISIN computed by `get_fundamentals` before fetching
(`stocks.py` lines 97-98): the stock name is lowercased, then passed to
`join_url` with the fundamentals base URL. -/
def fundamentalsUrl (stock : String) : String × Option String :=
  join_url "https://www.finanzen.net/bilanz_guv/" (lowerString stock)

/-! ### Numeric string helpers

`float` is modelled on finite decimal literals: an optional sign, an
integer part and an optional fractional part after `'.'`.  Strings
outside this grammar (in particular anything with residual non-numeric
content) yield `none`, as `float` raises `ValueError` there. -/

/-- Value of a digit string (most significant first). -/
def natVal (l : List Char) : ℕ :=
  l.foldl (fun a c => 10 * a + (c.toNat - '0'.toNat)) 0

/-- Unsigned part of the `float` grammar: digits, optionally followed by
`'.'` and further digits; at least one digit overall. -/
def parseUnsigned (cs : List Char) : Option ℚ :=
  let ip := cs.takeWhile Char.isDigit
  match cs.dropWhile Char.isDigit with
  | [] => if ip.isEmpty then none else some (natVal ip)
  | c :: r2 =>
    if c = '.' then
      let fp := r2.takeWhile Char.isDigit
      if (r2.dropWhile Char.isDigit).isEmpty && !(ip.isEmpty && fp.isEmpty) then
        some ((natVal ip : ℚ) + (natVal fp : ℚ) / 10 ^ fp.length)
      else none
    else none

/-- Model of Python `float` on finite decimal literals; `none` models a
raised `ValueError`. -/
def parseFloat (s : String) : Option ℚ :=
  match s.data with
  | [] => none
  | c :: rest =>
    if c = '-' then (parseUnsigned rest).map (fun q => -q)
    else if c = '+' then parseUnsigned rest
    else parseUnsigned (c :: rest)

/-- `re.sub(r"\.", "", x)` (`stocks.py` line 116): delete every `'.'`. -/
def stripDots (s : String) : String :=
  String.mk (s.data.filter (fun c => c ≠ '.'))

/-- `re.sub(",", ".", x)` (`stocks.py` line 117): replace every `','`
by `'.'`. -/
def replaceComma (s : String) : String :=
  String.mk (s.data.map (fun c => if c = ',' then '.' else c))

/-- `re.sub("[^\d,]", "", x)` (`stocks.py` line 226): keep only digits
and commas. -/
def keepDigitsComma (s : String) : String :=
  String.mk (s.data.filter (fun c => c.isDigit || c = ','))

/-- `s.split(" ")[0]` (`stocks.py` line 330): the chunk before the first
space. -/
def firstSpaceChunk (s : String) : String :=
  String.mk (s.data.takeWhile (fun c => c ≠ ' '))

/-! ### Document model

A fetched page is modelled by the pieces the functions navigate to:
for `get_fundamentals`, the containers around `h2` headings with their
`th` texts and `tr` rows; for `get_chart_infos`, the containers around
`box-headline` `h3` headings with a header row and body rows; plus the
`og:title` metadata content and the `special_info_box` text used by
`_check_site`. -/

/-- One `tr` of a fundamentals table: the text of the first
`td.font-bold` (the row label; `none` when no such `td` exists) and the
texts of all `td` cells in order. -/
structure FundRow where
  fontBold : Option String
  tds : List String
deriving DecidableEq

/-- The container (`.parent`) of one `h2` heading: the heading text,
all `th` texts and all `tr` rows, in document order. -/
structure FundSection where
  heading : String
  ths : List String
  trs : List FundRow
deriving DecidableEq

/-- The container of one `h3.box-headline` heading used by
`get_chart_infos`: the heading text, the table's header cell texts and
its body rows (cell texts per row). -/
structure ChartSection where
  heading : String
  header : List String
  body : List (List String)
deriving DecidableEq

/-- A parsed page (`soup`). -/
structure Soup where
  h2Sections : List FundSection
  h3Sections : List ChartSection
  ogTitle : Option String
  specialInfoBox : Option String
deriving DecidableEq

/-- Substring test: `re.search` / BeautifulSoup `text=re.compile(sig)`
with a metacharacter-free pattern `sig` is containment of `sig`. -/
def hasInfix (pat : List Char) : List Char → Bool
  | [] => pat.isEmpty
  | c :: r => pat.isPrefixOf (c :: r) || hasInfix pat r

/-- `sig` occurs as a substring of `s`. -/
def containsSub (s pat : String) : Bool :=
  hasInfix pat.data s.data

/-- `soup.find("h2", text=re.compile(signaler)).parent`
(`stocks.py` line 108), as an `Option`: the first `h2` section whose
heading contains the signaler. -/
def findH2Section (soup : Soup) (signaler : String) : Option FundSection :=
  soup.h2Sections.find? (fun sec => containsSub sec.heading signaler)

/-- `soup.find("h3", text=re.compile(signaler), attrs=...).parent`
(`stocks.py` line 180). -/
def findH3Section (soup : Soup) (signaler : String) : Option ChartSection :=
  soup.h3Sections.find? (fun sec => containsSub sec.heading signaler)

/-- `_check_site` (`stocks.py` lines 47-53): raise when the special info
box carries the known load-error message. -/
def check_site (soup : Soup) : Except Unit Unit :=
  match soup.specialInfoBox with
  | none => .ok ()
  | some msg =>
    if containsSub msg "Die gewünschte Seite konnte nicht angezeigt werden" then .error ()
    else .ok ()

/-- `get_isin_from_soup` (`stocks.py` lines 38-44): parse the `og:title`
content for an ISIN when the meta tag exists. -/
def get_isin_from_soup (soup : Soup) : Option String :=
  match soup.ogTitle with
  | none => none
  | some t => parse_for_isin t

/-- The ISIN available to `get_fundamentals`/`get_chart_infos`: the one
`join_url` extracted from the lowercased request (`stocks.py` lines
97-98), else the one from the page metadata
(`isin = isin if isin else get_isin_from_soup(soup)`, line 146/193). -/
def resolveIsin (stock : String) (soup : Soup) : Option String :=
  match parse_for_isin (lowerString stock) with
  | some i => some i
  | none => get_isin_from_soup soup

/-! ### The fundamentals table parser `_parse_table`
(`stocks.py` lines 106-120). -/

/-- A parsed table: row label to (column label to value); `none` values
are the `"-"` placeholders. -/
def FundTable : Type :=
  List (String × List (String × Option ℚ))

instance : DecidableEq FundTable := by
  unfold FundTable
  infer_instance

/-- Python `dict` update `d[k] = v`: overwrite the value in place when
the key exists, else append. -/
def upsert {α β : Type} [DecidableEq α] : List (α × β) → α → β → List (α × β)
  | [], k, v => [(k, v)]
  | (k2, v2) :: t, k, v => if k2 = k then (k2, v) :: t else (k2, v2) :: upsert t k v

/-- Build a Python `dict` from a sequence of key/value pairs (later
pairs overwrite earlier ones): models both `dict(zip(years, row_data))`
and the per-row `table_dict[name] = ...` assignments. -/
def dictOfPairs {α β : Type} [DecidableEq α] (ps : List (α × β)) : List (α × β) :=
  ps.foldl (fun d p => upsert d p.1 p.2) []

/-- The per-cell normalization of `_parse_table` (`stocks.py` lines
116-118): strip `'.'`, then turn `','` into `'.'`, then `float` the
result unless it is the `"-"` placeholder.  `.error` models the
`ValueError` that `float` raises on residual non-numeric content. -/
def fund_cell_value (x : String) : Except Unit (Option ℚ) :=
  let y := replaceComma (stripDots x)
  if y = "-" then .ok none
  else
    match parseFloat y with
    | some q => .ok (some q)
    | none => .error ()

/-- The body of `_parse_table`'s row loop (`stocks.py` lines 111-119):
the row label is the text of the first `td.font-bold` (an absent one
raises), the first two `td`s are dropped, the rest are normalized, and
the row dictionary is `dict(zip(years, row_data))`. -/
def parse_row (years : List String) (row : FundRow) :
    Except Unit (String × List (String × Option ℚ)) :=
  match row.fontBold with
  | none => .error ()
  | some nm =>
    match (row.tds.drop 2).mapM fund_cell_value with
    | .error e => .error e
    | .ok conv => .ok (nm, dictOfPairs (years.zip conv))

/-- `_parse_table` of `get_fundamentals` (`stocks.py` lines 106-120):
locate the section (a missing heading raises via `None.parent`), read
the years from the `th`s past the first two, parse every `tr` past the
first, and collect the rows into a dictionary keyed by row label. -/
def parse_table (soup : Soup) (signaler : String) : Except Unit FundTable :=
  match findH2Section soup signaler with
  | none => .error ()
  | some sec =>
    let years := sec.ths.drop 2
    match (sec.trs.drop 1).mapM (parse_row years) with
    | .error e => .error e
    | .ok rows => .ok (dictOfPairs rows)

/-- `try: _parse_table(...) except Exception: None`
(`stocks.py` lines 123-152). -/
def exceptToOption {α : Type} (e : Except Unit α) : Option α :=
  match e with
  | .ok a => some a
  | .error _ => none

/-! ### `get_fundamentals` (`stocks.py` lines 95-165). -/

/-- The Result Record of `get_fundamentals` (`stocks.py` lines
154-162). -/
structure Fundamentals where
  quotes : Option FundTable
  keyRatios : Option FundTable
  incomeStatement : Option FundTable
  balanceSheet : Option FundTable
  isin : String
  other : Option FundTable
deriving DecidableEq

/-- `get_fundamentals`, given the fetched page: check the site, parse
each category under its own `try/except`, resolve the ISIN, and build
the record.  `isin.upper()` on an unresolved (None) ISIN raises
`AttributeError`, modelled by `.error`. -/
def get_fundamentals (stock : String) (soup : Soup) : Except Unit Fundamentals :=
  match check_site soup with
  | .error e => .error e
  | .ok _ =>
    let quote_info := exceptToOption (parse_table soup "Die Aktie")
    let key_ratios := exceptToOption (parse_table soup "Unternehmenskennzahlen")
    let income_info := exceptToOption (parse_table soup "GuV")
    let balance_sheet := exceptToOption (parse_table soup "Bilanz")
    match resolveIsin stock soup with
    | none => .error ()
    | some i =>
      let other_info := exceptToOption (parse_table soup "sonstige Angaben")
      .ok { quotes := quote_info, keyRatios := key_ratios,
            incomeStatement := income_info, balanceSheet := balance_sheet,
            isin := upperString i, other := other_info }

/-! ### `get_chart_infos` (`stocks.py` lines 168-200). -/

/-- A cell of the chart table after `pd.read_html(..., decimal=",",
thousands=".")`: numeric-looking texts become numbers, others stay
text.  The numeric conversion is the localized parse (strip `'.'`,
comma to period, then parse). -/
inductive ChartCell where
  | num : ℚ → ChartCell
  | txt : String → ChartCell
deriving DecidableEq

/-- The conversion `pd.read_html` applies to one cell text. -/
def chartCell (s : String) : ChartCell :=
  match parseFloat (replaceComma (stripDots s)) with
  | some q => .num q
  | none => .txt s

/-- `_parse_table` of `get_chart_infos` (`stocks.py` lines 179-185)
fused with the final `.to_dict("index")` (line 197): locate the `h3`
section, make its first column the index and pair the remaining header
labels with the converted remaining cells of each body row. -/
def chart_parse_table (soup : Soup) (signaler : String) :
    Except Unit (List (String × List (String × ChartCell))) :=
  match findH3Section soup signaler with
  | none => .error ()
  | some sec =>
    .ok (sec.body.map (fun r =>
      (r.headD "", (sec.header.drop 1).zip ((r.drop 1).map chartCell))))

/-- The record returned by `get_chart_infos` (`stocks.py` lines
195-198). -/
structure ChartInfos where
  isin : String
  performance : List (String × List (String × ChartCell))
deriving DecidableEq

/-- `get_chart_infos`, given the fetched page: the Performance section
is parsed under `try/except` (a failure prints a warning and sets
`performance_info = None`, lines 187-191), the ISIN is resolved, and
the record is built.  Building the record evaluates `isin.upper()`
first and then `performance_info.to_dict("index")` (lines 196-197);
either a `None` ISIN or a `None` `performance_info` therefore raises
`AttributeError`, modelled by `.error`. -/
def get_chart_infos (stock : String) (soup : Soup) : Except Unit ChartInfos :=
  match check_site soup with
  | .error e => .error e
  | .ok _ =>
    let performance_info := exceptToOption (chart_parse_table soup "Performance")
    match resolveIsin stock soup with
    | none => .error ()
    | some i =>
      match performance_info with
      | none => .error ()
      | some df => .ok { isin := upperString i, performance := df }

/-! ### The `get_estimates` cell pipeline (`stocks.py` lines 220-229). -/

/-- The per-cell normalization of `get_estimates` (`stocks.py` lines
225-228): `"-"` becomes the missing marker before cleanup; otherwise
every character that is not a digit or a comma is removed, the comma
becomes a period, and the result is `float`ed. -/
def est_cell_value (x : String) : Except Unit (Option ℚ) :=
  if x = "-" then .ok none
  else
    match parseFloat (replaceComma (keepDigitsComma x)) with
    | some q => .ok (some q)
    | none => .error ()

/-! ### `get_estimates_lxml` (`stocks.py` lines 308-341).

The document is modelled as the `tr` elements matched by the XPath
(each `tr` is a list of children, each child contributing its
`./text()` node list).  The default argument `results=[]` of the
Python function is a single list object shared by all calls that do
not pass it explicitly; the body neither reads nor writes it, and the
embedding keeps it as an (unused) parameter so that the call protocol
can be stated. -/

/-- A processed cell of the estimates table: the header row and the
first column stay strings, data cells become floats unless they are the
`"-"` placeholder. -/
inductive EstCell where
  | num : ℚ → EstCell
  | txt : String → EstCell
deriving DecidableEq

/-- The `tr` elements of the estimates document: per `tr`, per child
element, the `./text()` results. -/
structure EstLxmlDoc where
  trs : List (List (List String))
deriving DecidableEq

/-- `table_row.append(i.xpath('./text()')[0])` (`stocks.py` lines
323-324): the first text of each child; an empty text list raises
`IndexError`. -/
def est_build_row (tr : List (List String)) : Except Unit (List String) :=
  tr.mapM (fun texts =>
    match texts with
    | [] => .error ()
    | t :: _ => .ok t)

/-- Header-row processing (`stocks.py` lines 332-334):
`table_row[0] = "Estimation"`; an empty row raises `IndexError`. -/
def est_header_row (row : List String) : Except Unit (List EstCell) :=
  match row with
  | [] => .error ()
  | _ :: t => .ok (EstCell.txt "Estimation" :: t.map EstCell.txt)

/-- Data-cell processing (`stocks.py` lines 327-330): non-placeholder
cells have `'.'` stripped and `','` turned into `'.'`, then the chunk
before the first space is `float`ed. -/
def est_convert_cell (s : String) : Except Unit EstCell :=
  if s = "-" then .ok (EstCell.txt s)
  else
    match parseFloat (firstSpaceChunk (replaceComma (stripDots s))) with
    | some q => .ok (EstCell.num q)
    | none => .error ()

/-- Data-row processing: indices `1..` are converted, index `0` stays
text (`for i in range(1, len(table_row))`, line 327). -/
def est_data_row (row : List String) : Except Unit (List EstCell) :=
  match row with
  | [] => .ok []
  | h :: t =>
    match t.mapM est_convert_cell with
    | .error e => .error e
    | .ok t2 => .ok (EstCell.txt h :: t2)

/-- The dataframe built at the end of the loop (`stocks.py` lines
337-339): columns from the first accumulated row, data from the
rest. -/
structure EstDf where
  columns : List EstCell
  data : List (List EstCell)
deriving DecidableEq

/-- `get_estimates_lxml` (`stocks.py` lines 308-341).  With no `tr` at
all the loop never runs and the `return dataframe` raises `NameError`,
modelled by `.error`.  The parameter `results` models the shared
default-argument list; the body never uses it. -/
def get_estimates_lxml (doc : EstLxmlDoc) (results : List (List EstCell)) :
    Except Unit EstDf :=
  match doc.trs with
  | [] => .error ()
  | tr0 :: rest =>
    match est_build_row tr0 with
    | .error e => .error e
    | .ok row0 =>
      match est_header_row row0 with
      | .error e => .error e
      | .ok hdr =>
        match rest.mapM (fun tr =>
            match est_build_row tr with
            | .error e => Except.error e
            | .ok row => est_data_row row) with
        | .error e => .error e
        | .ok rows => .ok { columns := hdr, data := rows }

/-- One call through the shared-default-argument protocol: the state is
the contents of the default list object; the call leaves it as the body
left it (here: untouched) and yields the function's result. -/
def call_estimates_lxml (store : List (List EstCell)) (doc : EstLxmlDoc) :
    List (List EstCell) × Except Unit EstDf :=
  (store, get_estimates_lxml doc store)

/-! ### `get_fundamentals_lxml` (`stocks.py` lines 344-394). -/

/-- One container matched by the per-table XPath: the `thead` `th`
texts and, per `tr`, the flat `.//td/text()` list. -/
structure FundContainer where
  headerTexts : List String
  trs : List (List String)
deriving DecidableEq

/-- Row cleanup (`stocks.py` lines 381-383): every cell past the first
has `'.'` stripped and `','` turned into `'.'`; cells stay strings. -/
def fund_clean_row (data : List String) : List String :=
  match data with
  | [] => []
  | h :: t => h :: t.map (fun s => replaceComma (stripDots s))

/-- The per-container dataframe (`stocks.py` lines 369-390): header
texts as columns, the `tr`s past the first (the checkbox row is
dropped, lines 377-386) cleaned as data. -/
structure LxmlDf where
  columns : List String
  data : List (List String)
deriving DecidableEq

def fund_container_df (c : FundContainer) : LxmlDf :=
  { columns := c.headerTexts, data := (c.trs.drop 1).map fund_clean_row }

/-- The concatenated dataframe returned by `get_fundamentals_lxml`. -/
structure ConcatDf where
  columns : List String
  data : List (List (Option String))
deriving DecidableEq

/-- Deduplicate, keeping first occurrences (column-label union order of
`pd.concat`). -/
def dedupStr (l : List String) : List String :=
  l.foldl (fun acc s => if s ∈ acc then acc else acc ++ [s]) []

/-- Value of row `row` (labelled by `cols`) at column `c`; `none`
models the `NaN` fill of `pd.concat` alignment. -/
def lookupCol (cols : List String) (row : List String) (c : String) : Option String :=
  ((cols.zip row).find? (fun p => p.1 = c)).map (fun p => p.2)

/-- `pd.concat(dfs, ignore_index=True)` (`stocks.py` line 394),
abstracted to its column alignment: the columns are the union of all
column labels in order of appearance, each row is realigned to them
with `NaN` (`none`) fill. -/
def concat_dfs (dfs : List LxmlDf) : ConcatDf :=
  let cols := dedupStr (dfs.flatMap (fun d => d.columns))
  { columns := cols,
    data := dfs.flatMap (fun d => d.data.map (fun row => cols.map (lookupCol d.columns row))) }

/-- The five table signalers (`stocks.py` lines 347-352). -/
def fund_lxml_tables : List String :=
  ["Die Aktie", "Unternehmenskennzahlen", "GuV", "Bilanz", "sonstige Angaben"]

/-- `get_fundamentals_lxml` (`stocks.py` lines 344-394), given the
fetched document as a map from table signaler to the containers its
XPath matches.  `pd.concat` of an empty list raises `ValueError`,
modelled by `.error`.  The parameter `results` models the shared
default-argument list; the body never uses it. -/
def get_fundamentals_lxml (doc : String → List FundContainer)
    (results : List (List String)) : Except Unit ConcatDf :=
  let dfs := fund_lxml_tables.flatMap (fun t => (doc t).map fund_container_df)
  match dfs with
  | [] => .error ()
  | _ => .ok (concat_dfs dfs)

/-- One call through the shared-default-argument protocol for
`get_fundamentals_lxml`. -/
def call_fundamentals_lxml (store : List (List String))
    (doc : String → List FundContainer) :
    List (List String) × Except Unit ConcatDf :=
  (store, get_fundamentals_lxml doc store)

/-! ### Concrete pages used as test inputs -/

/-- A minimal well-formed section: two leading structural `th`s, one
year column, a header `tr`, and one data `tr` with two leading
structural `td`s. -/
def mkSection (h : String) (year : String) (nm : String) (v : String) : FundSection :=
  { heading := h, ths := ["", "", year], trs := [⟨none, []⟩, ⟨some nm, ["", "", v]⟩] }

/-- A page with every fundamentals section except "Bilanz", and an ISIN
in the `og:title` metadata. -/
def soupNoBilanz : Soup :=
  { h2Sections := [mkSection "Die Aktie" "2022" "Kurs" "10,5",
                   mkSection "Unternehmenskennzahlen" "2022" "KGV" "7,1",
                   mkSection "GuV" "2022" "Umsatz" "1.000,5",
                   mkSection "sonstige Angaben" "2022" "Mitarbeiter" "100"],
    h3Sections := [],
    ogTitle := some "BMW AG Aktie DE0005190003",
    specialInfoBox := none }

/-- A chart page whose only `h3` heading is not "Performance", with an
ISIN in the `og:title` metadata: otherwise intact, but the Performance
section is absent. -/
def soupNoPerformance : Soup :=
  { h2Sections := [],
    h3Sections := [⟨"Kursentwicklung", ["Zeitraum", "Kurs"], [["1 Monat", "92,5"]]⟩],
    ogTitle := some "BMW AG Aktie DE0005190003",
    specialInfoBox := none }

/-- A page whose "GuV" section has two year labels but a data row with
three value cells. -/
def soupRaggedRow : Soup :=
  { h2Sections := [{ heading := "GuV", ths := ["", "", "2022", "2023"],
                     trs := [⟨none, []⟩, ⟨some "Umsatz", ["", "", "1", "2", "3"]⟩] }],
    h3Sections := [],
    ogTitle := some "BMW AG Aktie DE0005190003",
    specialInfoBox := none }

/-- A page whose "Die Aktie" section contains one unparseable cell
(`"abc"`), while every other section is well-formed. -/
def soupBadCell : Soup :=
  { h2Sections := [{ heading := "Die Aktie", ths := ["", "", "2022", "2023"],
                     trs := [⟨none, []⟩, ⟨some "Kurs", ["", "", "1,5", "abc"]⟩] },
                   mkSection "Unternehmenskennzahlen" "2022" "KGV" "7,1",
                   mkSection "GuV" "2022" "Umsatz" "1.000,5",
                   mkSection "Bilanz" "2022" "Bilanzsumme" "9,9",
                   mkSection "sonstige Angaben" "2022" "Mitarbeiter" "100"],
    h3Sections := [],
    ogTitle := some "BMW AG Aktie DE0005190003",
    specialInfoBox := none }

/-- A page carrying no ISIN anywhere: no `og:title` meta tag and no
sections. -/
def soupNoIsin : Soup :=
  { h2Sections := [], h3Sections := [], ogTitle := none, specialInfoBox := none }

/-! ### Lemmas about the ISIN scanner -/

theorem string_data_append : ∀ a b : String, (a ++ b).data = a.data ++ b.data
  | ⟨_⟩, ⟨_⟩ => rfl

/-- `searchIsin` finds nothing exactly when the pattern matches at no
position. -/
theorem searchIsin_eq_none_iff (l : List Char) :
    searchIsin l = none ↔ ∀ i, isinMatchAt (l.drop i) = false := by
  induction l with
  | nil =>
    simp only [searchIsin, List.drop_nil, true_iff]
    intro i
    rfl
  | cons c cs ih =>
    by_cases h : isinMatchAt (c :: cs) = true
    · simp only [searchIsin, h, if_true]
      constructor
      · intro hc
        exact absurd hc (by simp)
      · intro hall
        have := hall 0
        simp only [List.drop_zero] at this
        rw [h] at this
        exact absurd this (by simp)
    · have hf : isinMatchAt (c :: cs) = false := by
        revert h
        cases isinMatchAt (c :: cs) <;> simp
      simp only [searchIsin, hf, if_neg, Bool.false_eq_true, if_false]
      rw [ih]
      constructor
      · intro hall i
        cases i with
        | zero => simpa using hf
        | succ j => simpa using hall j
      · intro hall i
        have := hall (i + 1)
        simpa using this

/-- `searchIsin` returns the leftmost match: if the pattern matches at
position `i` and at no earlier position, the result is the 12-character
slice at `i`. -/
theorem searchIsin_leftmost (l : List Char) (i : ℕ)
    (hbefore : ∀ j, j < i → isinMatchAt (l.drop j) = false)
    (hi : isinMatchAt (l.drop i) = true) :
    searchIsin l = some ((l.drop i).take 12) := by
  induction l generalizing i with
  | nil =>
    exact absurd hi (by simp [isinMatchAt, checkO])
  | cons c cs ih =>
    cases i with
    | zero =>
      simp only [List.drop_zero] at hi
      simp [searchIsin, hi]
    | succ j =>
      have h0 : isinMatchAt (c :: cs) = false := by simpa using hbefore 0 (Nat.succ_pos j)
      simp only [searchIsin, h0, Bool.false_eq_true, if_false, List.drop_succ_cons]
      exact ih j (fun k hk => by simpa using hbefore (k + 1) (Nat.succ_lt_succ hk))
        (by simpa using hi)

/-- A 12-character whole-string match is returned as-is. -/
theorem searchIsin_of_whole (l : List Char) (hlen : l.length = 12)
    (hm : isinMatchAt l = true) : searchIsin l = some l := by
  have := searchIsin_leftmost l 0 (fun j hj => absurd hj (Nat.not_lt_zero j))
    (by simpa using hm)
  simpa [List.take_of_length_le (le_of_eq hlen)] using this

/-- The pattern cannot match at a position whose third character (or a
later one of the nine) is available and outside `[A-Z0-9]`. -/
theorem isinMatchAt_false_of_idx2 (cs : List Char) (c : Char)
    (h2 : cs[2]? = some c) (hc : isUpperAlnum c = false) :
    isinMatchAt cs = false := by
  simp [isinMatchAt, h2, checkO, hc]

/-- The pattern cannot match when the first character is available and
not a letter. -/
theorem isinMatchAt_false_of_idx0 (cs : List Char) (c : Char)
    (h0 : cs[0]? = some c) (hc : c.isAlpha = false) :
    isinMatchAt cs = false := by
  simp [isinMatchAt, h0, checkO, hc]

/-- The pattern cannot match when the second character is available and
not a letter. -/
theorem isinMatchAt_false_of_idx1 (cs : List Char) (c : Char)
    (h1 : cs[1]? = some c) (hc : c.isAlpha = false) :
    isinMatchAt cs = false := by
  simp [isinMatchAt, h1, checkO, hc]

/-- Scanning past a prefix none of whose characters is in `[A-Z0-9]`
and whose last character is not a letter: no match can start inside the
prefix, so the scan result is that of the remainder. -/
theorem searchIsin_append (l : List Char)
    (hua : ∀ c ∈ l, isUpperAlnum c = false)
    (hlast : ∀ c, l.getLast? = some c → c.isAlpha = false) :
    ∀ s, searchIsin (l ++ s) = searchIsin s := by
  induction l with
  | nil => intro s; rfl
  | cons c t ih =>
    intro s
    have hmatch : isinMatchAt (c :: (t ++ s)) = false := by
      match t with
      | [] =>
        exact isinMatchAt_false_of_idx0 _ c (by simp) (hlast c (by simp))
      | [d] =>
        exact isinMatchAt_false_of_idx1 _ d (by simp) (hlast d (by simp))
      | d :: e :: t2 =>
        exact isinMatchAt_false_of_idx2 _ e (by simp) (hua e (by simp))
    simp only [List.cons_append, searchIsin, List.append_eq, hmatch,
      Bool.false_eq_true, if_false]
    apply ih
    · intro x hx
      exact hua x (List.mem_cons_of_mem c hx)
    · intro x hx
      apply hlast
      match t with
      | [] => exact absurd hx (by simp)
      | d :: t2 => simpa [List.getLast?_cons_cons] using hx

/-! ### Lemmas about the numeric normalizers -/

theorem takeWhile_all_append {p : Char → Bool} :
    ∀ (a : List Char), (∀ c ∈ a, p c = true) → ∀ (x : Char) (r : List Char),
      p x = false → (a ++ x :: r).takeWhile p = a ∧ (a ++ x :: r).dropWhile p = x :: r
  | [], _, x, r, hx => by simp [List.takeWhile, List.dropWhile, hx]
  | c :: t, h, x, r, hx => by
    have hc : p c = true := h c (by simp)
    have ht := takeWhile_all_append t (fun d hd => h d (List.mem_cons_of_mem c hd)) x r hx
    simp [List.takeWhile, List.dropWhile, hc, ht.1, ht.2]

theorem takeWhile_all {p : Char → Bool} :
    ∀ (a : List Char), (∀ c ∈ a, p c = true) →
      a.takeWhile p = a ∧ a.dropWhile p = []
  | [], _ => by simp
  | c :: t, h => by
    have hc : p c = true := h c (by simp)
    have ht := takeWhile_all t (fun d hd => h d (List.mem_cons_of_mem c hd))
    simp [List.takeWhile, List.dropWhile, hc, ht.1, ht.2]

/-- A digit is not a sign, a dot, a comma or a dash. -/
theorem digit_ne (c : Char) (hc : c.isDigit = true) :
    c ≠ '-' ∧ c ≠ '+' ∧ c ≠ '.' ∧ c ≠ ',' := by
  refine ⟨?_, ?_, ?_, ?_⟩ <;>
    (intro heq; rw [heq] at hc; exact absurd hc (by decide))

/-- `parseUnsigned` evaluates a digit-dot-digit literal to its decimal
value. -/
theorem parseUnsigned_decimal (ip fp : List Char)
    (hip : ∀ c ∈ ip, c.isDigit = true) (hfp : ∀ c ∈ fp, c.isDigit = true)
    (hipne : ip ≠ []) :
    parseUnsigned (ip ++ '.' :: fp) =
      some ((natVal ip : ℚ) + (natVal fp : ℚ) / 10 ^ fp.length) := by
  have hdot : Char.isDigit '.' = false := by decide
  have hsplit := takeWhile_all_append ip hip '.' fp hdot
  have hfpall := takeWhile_all fp hfp
  have hipem : ip.isEmpty = false := by
    match ip, hipne with
    | c :: t, _ => rfl
  unfold parseUnsigned
  simp [hsplit.1, hsplit.2, hfpall.1, hfpall.2, hipem]

/-- `parseFloat` evaluates a digit-dot-digit literal to its decimal
value. -/
theorem parseFloat_decimal (ip fp : List Char)
    (hip : ∀ c ∈ ip, c.isDigit = true) (hfp : ∀ c ∈ fp, c.isDigit = true)
    (hipne : ip ≠ []) :
    parseFloat (String.mk (ip ++ '.' :: fp)) =
      some ((natVal ip : ℚ) + (natVal fp : ℚ) / 10 ^ fp.length) := by
  match ip, hipne with
  | c :: t, _ =>
    have hc : c.isDigit = true := hip c (by simp)
    have hne := digit_ne c hc
    show parseFloat ⟨(c :: t) ++ '.' :: fp⟩ = _
    unfold parseFloat
    simp only [List.cons_append, if_neg hne.1, if_neg hne.2.1]
    exact parseUnsigned_decimal (c :: t) fp hip hfp (by simp)

/-- Digits are unchanged by the comma-to-period substitution. -/
theorem map_comma_swap_digits (l : List Char) (h : ∀ c ∈ l, c.isDigit = true) :
    l.map (fun c => if c = ',' then '.' else c) = l := by
  induction l with
  | nil => rfl
  | cons c t ih =>
    have hc := digit_ne c (h c (by simp))
    simp only [List.map_cons, if_neg hc.2.2.2,
      ih (fun d hd => h d (List.mem_cons_of_mem c hd))]

/-- Digits survive the digit-or-comma filter. -/
theorem filter_digit_comma_digits (l : List Char) (h : ∀ c ∈ l, c.isDigit = true) :
    l.filter (fun c => c.isDigit || c = ',') = l := by
  induction l with
  | nil => rfl
  | cons c t ih =>
    have hc := h c (by simp)
    simp [List.filter_cons, hc, ih (fun d hd => h d (List.mem_cons_of_mem c hd))]

/-! ### Lemmas about `mapM` over `Except` and the `dict` model -/

theorem except_mapM_error {α β : Type} (f : α → Except Unit β) :
    ∀ (l : List α) (x : α), x ∈ l → f x = .error () → l.mapM f = .error () := by
  intro l
  induction l with
  | nil => intro x hx; exact absurd hx (List.not_mem_nil x)
  | cons a t ih =>
    intro x hx hfx
    rw [List.mapM_cons]
    rcases List.mem_cons.mp hx with heq | hmem
    · subst heq
      rw [hfx]
      rfl
    · cases hfa : f a with
      | error e => rfl
      | ok b =>
        have hrec := ih x hmem hfx
        rw [hrec]
        rfl

/-- Overwriting `d[k]` for a key not in `d` appends the pair. -/
theorem upsert_not_mem {α β : Type} [DecidableEq α] :
    ∀ (d : List (α × β)) (k : α) (v : β), (∀ p ∈ d, p.1 ≠ k) →
      upsert d k v = d ++ [(k, v)] := by
  intro d
  induction d with
  | nil => intro k v _; rfl
  | cons p t ih =>
    intro k v h
    have hp : p.1 ≠ k := h p (by simp)
    simp only [upsert, if_neg hp, List.cons_append, List.cons.injEq, true_and]
    exact ih k v (fun q hq => h q (List.mem_cons_of_mem p hq))

/-- Building a `dict` from pairs with pairwise-distinct keys keeps the
pairs as given. -/
theorem dictOfPairs_nodup {α β : Type} [DecidableEq α] (ps : List (α × β))
    (h : (ps.map Prod.fst).Nodup) : dictOfPairs ps = ps := by
  suffices hgen : ∀ (qs acc : List (α × β)), ((acc ++ qs).map Prod.fst).Nodup →
      List.foldl (fun d p => upsert d p.1 p.2) acc qs = acc ++ qs by
    simpa using hgen ps [] (by simpa using h)
  intro qs
  induction qs with
  | nil => intro acc _; simp
  | cons p t ih =>
    intro acc hacc
    have hknotin : ∀ q ∈ acc, q.1 ≠ p.1 := by
      intro q hq heq
      have : (acc.map Prod.fst).Disjoint ((p :: t).map Prod.fst) :=
        List.disjoint_of_nodup_append (by simpa using hacc)
      exact this (List.mem_map_of_mem Prod.fst hq) (by simp [heq.symm])
    have hup : upsert acc p.1 p.2 = acc ++ [p] := upsert_not_mem acc p.1 p.2 hknotin
    simp only [List.foldl_cons, hup]
    have := ih (acc ++ [p]) (by simpa [List.append_assoc] using hacc)
    simpa [List.append_assoc] using this

/-- The first components of `zip a b` are the first `b.length` entries
of `a`. -/
theorem map_fst_zip {α β : Type} :
    ∀ (a : List α) (b : List β), (a.zip b).map Prod.fst = a.take b.length := by
  intro a
  induction a with
  | nil => intro b; simp
  | cons x t ih =>
    intro b
    cases b with
    | nil => simp
    | cons y u => simp [List.zip_cons_cons, ih u]

/-- A string of at least two characters is not the `"-"` placeholder. -/
theorem mk_ne_dash (l : List Char) (h : 2 ≤ l.length) : (⟨l⟩ : String) ≠ "-" := by
  intro heq
  have hd : l = ['-'] := by
    have := congrArg String.data heq
    simpa using this
  rw [hd] at h
  exact absurd h (by decide)

/-- The comma-to-period substitution on a digits-comma-digits list swaps
exactly the comma. -/
theorem replaceComma_digits (ip fp : List Char)
    (hip : ∀ c ∈ ip, c.isDigit = true) (hfp : ∀ c ∈ fp, c.isDigit = true) :
    replaceComma ⟨ip ++ ',' :: fp⟩ = ⟨ip ++ '.' :: fp⟩ := by
  unfold replaceComma
  show String.mk ((ip ++ ',' :: fp).map _) = _
  rw [List.map_append, map_comma_swap_digits ip hip, List.map_cons,
    map_comma_swap_digits fp hfp]
  simp

/-! ## The claims -/

/-- C1: on a page missing exactly one section heading,
`get_fundamentals` indeed degrades that category to `None` and
populates the others — but `get_chart_infos` on a page missing the
"Performance" heading crashes (its `except` branch sets
`performance_info = None` and line 197 then calls `.to_dict` on it),
instead of returning a record with a null Performance category. -/
theorem c1_missing_section :
    get_fundamentals "BMW" soupNoBilanz = .ok
      { quotes := some [("Kurs", [("2022", some (21/2))])],
        keyRatios := some [("KGV", [("2022", some (71/10))])],
        incomeStatement := some [("Umsatz", [("2022", some (2001/2))])],
        balanceSheet := none,
        isin := "DE0005190003",
        other := some [("Mitarbeiter", [("2022", some 100)])] } ∧
    get_chart_infos "BMW" soupNoPerformance = .error () := by
  constructor <;> decide

/-- C8: a second call to `get_estimates_lxml` or `get_fundamentals_lxml`
through the shared-default-argument protocol, with a different document,
yields exactly what a single fresh call (with a new empty default list)
would yield: the body never reads or writes the `results` accumulator. -/
theorem c8_no_accumulator_leak (est_store : List (List EstCell))
    (d1 d2 : EstLxmlDoc) (fund_store : List (List String))
    (g1 g2 : String → List FundContainer) :
    (call_estimates_lxml (call_estimates_lxml est_store d1).1 d2).2 =
      (call_estimates_lxml [] d2).2 ∧
    (call_fundamentals_lxml (call_fundamentals_lxml fund_store g1).1 g2).2 =
      (call_fundamentals_lxml [] g2).2 :=
  ⟨rfl, rfl⟩

/-- C9: when neither the request input nor the page metadata yields an
ISIN, `get_fundamentals` and `get_chart_infos` raise (the `.upper()`
call on `None`) instead of returning a record with a null ISIN. -/
theorem c9_no_isin_raises (stock : String) (soup : Soup)
    (h : resolveIsin stock soup = none) :
    get_fundamentals stock soup = .error () ∧
    get_chart_infos stock soup = .error () := by
  constructor
  · unfold get_fundamentals
    cases hcs : check_site soup with
    | error e => cases e; rfl
    | ok u =>
      cases u
      rw [h]
  · unfold get_chart_infos
    cases hcs : check_site soup with
    | error e => cases e; rfl
    | ok u =>
      cases u
      rw [h]

/-- C9 witness: a page with no `og:title` tag requested under the name
"bmw". -/
theorem c9_no_isin_raises_witness :
    resolveIsin "bmw" soupNoIsin = none ∧
    get_fundamentals "bmw" soupNoIsin = .error () ∧
    get_chart_infos "bmw" soupNoIsin = .error () :=
  ⟨by decide, (c9_no_isin_raises "bmw" soupNoIsin (by decide)).1,
    (c9_no_isin_raises "bmw" soupNoIsin (by decide)).2⟩

/-- C2: the fundamentals numeric normalizer maps every localized
digit-groups-comma-digits cell to its decimal value — the `'.'`
separators are stripped first (the hypothesis constrains only the
dot-stripped form of the cell), then `','` becomes `'.'` — and maps the
`"-"` cell to the missing marker. -/
theorem c2_localized_normalization (s : String) (ip fp : List Char)
    (hip : ∀ c ∈ ip, c.isDigit = true) (hfp : ∀ c ∈ fp, c.isDigit = true)
    (hipne : ip ≠ []) (hfpne : fp ≠ [])
    (hs : stripDots s = ⟨ip ++ ',' :: fp⟩) :
    fund_cell_value s =
      .ok (some ((natVal ip : ℚ) + (natVal fp : ℚ) / 10 ^ fp.length)) ∧
    fund_cell_value "-" = .ok none := by
  constructor
  · have hclean : replaceComma (stripDots s) = ⟨ip ++ '.' :: fp⟩ := by
      rw [hs]
      exact replaceComma_digits ip fp hip hfp
    have hne : (⟨ip ++ '.' :: fp⟩ : String) ≠ "-" := by
      apply mk_ne_dash
      have h1 : 0 < ip.length := List.length_pos.mpr hipne
      simp only [List.length_append, List.length_cons]
      omega
    unfold fund_cell_value
    rw [hclean, if_neg hne, parseFloat_decimal ip fp hip hfp hipne]
  · decide

/-- C2 witness: the cell `"1.234,56"` normalizes to `1234.56`. -/
theorem c2_localized_normalization_witness :
    fund_cell_value "1.234,56" = .ok (some ((30864 : ℚ) / 25)) ∧
    fund_cell_value "-" = .ok none :=
  have h := c2_localized_normalization "1.234,56" ['1', '2', '3', '4'] ['5', '6']
    (by decide) (by decide) (by decide) (by decide) (by decide)
  ⟨h.1.trans (by decide), h.2⟩

/-- C3 counterexample: a body row with three value cells under two year
labels is neither rejected nor skipped: it is emitted with its third
cell silently dropped by the `zip` truncation. -/
theorem c3_counterexample :
    parse_table soupRaggedRow "GuV" =
      .ok [("Umsatz", [("2022", some 1), ("2023", some 2)])] ∧
    ((soupRaggedRow.h2Sections.headD ⟨"", [], []⟩).ths.drop 2).length = 2 ∧
    (((soupRaggedRow.h2Sections.headD ⟨"", [], []⟩).trs.getLastD ⟨none, []⟩).tds.drop 2).length = 3 := by
  refine ⟨by decide, by decide, by decide⟩

/-- C3 (amended): a body row whose converted cells parse is emitted with
its cells paired positionally against the year labels up to the shorter
of the two lists (`dict(zip(years, row_data))`): extra cells or extra
labels are silently dropped, and no error is raised. -/
theorem c3_zip_truncation (years : List String) (row : FundRow) (nm : String)
    (conv : List (Option ℚ))
    (hnm : row.fontBold = some nm)
    (hconv : (row.tds.drop 2).mapM fund_cell_value = .ok conv)
    (hnd : years.Nodup) :
    parse_row years row = .ok (nm, years.zip conv) ∧
    (years.zip conv).length = min years.length conv.length := by
  constructor
  · have hdict : dictOfPairs (years.zip conv) = years.zip conv := by
      apply dictOfPairs_nodup
      rw [map_fst_zip]
      exact hnd.sublist (List.take_sublist _ _)
    simp only [parse_row, hnm, hconv, hdict]
  · exact List.length_zip years conv

/-- C3 witness: the ragged row of `soupRaggedRow`, parsed directly. -/
theorem c3_zip_truncation_witness :
    parse_row ["2022", "2023"] ⟨some "Umsatz", ["", "", "1", "2", "3"]⟩ =
      .ok ("Umsatz", [("2022", some 1), ("2023", some 2)]) :=
  (c3_zip_truncation ["2022", "2023"] ⟨some "Umsatz", ["", "", "1", "2", "3"]⟩
    "Umsatz" [some 1, some 2, some 3] (by decide) (by decide) (by decide)).1.trans
    (by decide)

/-- C4 counterexample: one unparseable cell (`"abc"`) in the
"Die Aktie" table makes the whole Quotes category `None` — the value is
not individually degraded to missing — while the other categories are
still extracted. -/
theorem c4_counterexample :
    get_fundamentals "bmw" soupBadCell = .ok
      { quotes := none,
        keyRatios := some [("KGV", [("2022", some (71/10))])],
        incomeStatement := some [("Umsatz", [("2022", some (2001/2))])],
        balanceSheet := some [("Bilanzsumme", [("2022", some (99/10))])],
        isin := "DE0005190003",
        other := some [("Mitarbeiter", [("2022", some 100)])] } ∧
    fund_cell_value "abc" = .error () ∧
    (soupBadCell.h2Sections.headD ⟨"", [], []⟩).heading = "Die Aktie" := by
  refine ⟨by decide, by decide, by decide⟩

/-- C4 (amended): an unparseable cell in the "Die Aktie" table aborts
that section's parse, and the caller records the whole Quotes category
as missing (`None`) while the page extraction continues: every other
category is exactly what its own parse yields. -/
theorem c4_unparseable_cell (stock : String) (soup : Soup) (sec : FundSection)
    (row : FundRow) (nm x i : String)
    (hcs : check_site soup = .ok ())
    (hsec : findH2Section soup "Die Aktie" = some sec)
    (hrow : row ∈ sec.trs.drop 1)
    (hnm : row.fontBold = some nm)
    (hx : x ∈ row.tds.drop 2)
    (hbad : fund_cell_value x = .error ())
    (hisin : resolveIsin stock soup = some i) :
    get_fundamentals stock soup = .ok
      { quotes := none,
        keyRatios := exceptToOption (parse_table soup "Unternehmenskennzahlen"),
        incomeStatement := exceptToOption (parse_table soup "GuV"),
        balanceSheet := exceptToOption (parse_table soup "Bilanz"),
        isin := upperString i,
        other := exceptToOption (parse_table soup "sonstige Angaben") } := by
  have hrowerr : parse_row (sec.ths.drop 2) row = .error () := by
    unfold parse_row
    rw [hnm, except_mapM_error fund_cell_value _ x hx hbad]
  have htable : parse_table soup "Die Aktie" = .error () := by
    simp only [parse_table, hsec,
      except_mapM_error (parse_row (sec.ths.drop 2)) _ row hrow hrowerr]
  simp only [get_fundamentals, hcs, htable, hisin, exceptToOption]

/-- C4 witness: the amended behavior at the concrete page
`soupBadCell`. -/
theorem c4_unparseable_cell_witness :
    get_fundamentals "bmw" soupBadCell = .ok
      { quotes := none,
        keyRatios := exceptToOption (parse_table soupBadCell "Unternehmenskennzahlen"),
        incomeStatement := exceptToOption (parse_table soupBadCell "GuV"),
        balanceSheet := exceptToOption (parse_table soupBadCell "Bilanz"),
        isin := "DE0005190003",
        other := exceptToOption (parse_table soupBadCell "sonstige Angaben") } :=
  (c4_unparseable_cell "bmw" soupBadCell
    { heading := "Die Aktie", ths := ["", "", "2022", "2023"],
      trs := [⟨none, []⟩, ⟨some "Kurs", ["", "", "1,5", "abc"]⟩] }
    ⟨some "Kurs", ["", "", "1,5", "abc"]⟩ "Kurs" "abc" "DE0005190003"
    (by decide) (by decide) (by decide) (by decide) (by decide) (by decide)
    (by decide)).trans (by decide)

/-- C5 counterexample: `"abcdefghijk1"` contains a substring matching
the spec's pattern (2 letters, 9 alphanumeric characters, 1 digit),
yet `parse_for_isin` returns `None`: the code's middle class is
`[A-Z0-9]`, which rejects the lowercase characters. -/
theorem c5_counterexample :
    specHasIsin "abcdefghijk1".data = true ∧
    parse_for_isin "abcdefghijk1" = none := by
  constructor <;> decide

/-- C5 (amended): with the middle nine characters restricted to
uppercase letters and digits (the code's `[A-Z0-9]`), `parse_for_isin`
returns `None` exactly when the pattern matches at no position, and
returns the leftmost 12-character match otherwise. -/
theorem c5_first_match (s : String) :
    (parse_for_isin s = none ↔ ∀ i, isinMatchAt (s.data.drop i) = false) ∧
    (∀ i, (∀ j, j < i → isinMatchAt (s.data.drop j) = false) →
      isinMatchAt (s.data.drop i) = true →
      parse_for_isin s = some (String.mk ((s.data.drop i).take 12))) := by
  constructor
  · unfold parse_for_isin
    rw [Option.map_eq_none']
    exact searchIsin_eq_none_iff s.data
  · intro i hb hi
    unfold parse_for_isin
    rw [searchIsin_leftmost s.data i hb hi]
    rfl

/-- C5 witness: the leftmost match of `"==DE0007164600"` starts at
position 2. -/
theorem c5_first_match_witness :
    parse_for_isin "==DE0007164600" = some "DE0007164600" :=
  ((c5_first_match "==DE0007164600").2 2 (by decide) (by decide)).trans (by decide)

/-- C6 counterexample: `"GB00B03MLX29"` contains an ISIN-shaped
substring (itself), but the orchestrator lowercases it before building
the URL, the lowercased form no longer matches the pattern, and the
constructed URL is the direct fundamentals endpoint, not the ISIN
search endpoint. -/
theorem c6_counterexample :
    parse_for_isin "GB00B03MLX29" = some "GB00B03MLX29" ∧
    (fundamentalsUrl "GB00B03MLX29").1 =
      "https://www.finanzen.net/bilanz_guv/gb00b03mlx29" ∧
    (fundamentalsUrl "GB00B03MLX29").1 ≠ searchEndpoint ++ lowerString "GB00B03MLX29" := by
  refine ⟨by decide, by decide, by decide⟩

/-- C6 (amended): for every search value whose lowercased form still
contains a match of the code's ISIN pattern, the URL built by the
fundamentals orchestrator is the ISIN search endpoint. -/
theorem c6_isin_search_url (stock i : String)
    (h : parse_for_isin (lowerString stock) = some i) :
    (fundamentalsUrl stock).1 = searchEndpoint ++ lowerString stock := by
  simp only [fundamentalsUrl, join_url, h]

/-- C6 witness: the input `"DE0007164600"`, whose ISIN survives
lowercasing because its middle nine characters are digits. -/
theorem c6_isin_search_url_witness :
    (fundamentalsUrl "DE0007164600").1 = searchEndpoint ++ "de0007164600" :=
  (c6_isin_search_url "DE0007164600" "de0007164600" (by decide)).trans (by decide)

/-- C7: when the search value is itself an ISIN (a whole-string match
of the pattern), `join_url` derives that ISIN, and re-applying the ISIN
extractor to the constructed URL yields the same ISIN. -/
theorem c7_roundtrip (base s : String) (h : isinWhole s = true) :
    parse_for_isin (join_url base s).1 = some s ∧
    (join_url base s).2 = some s := by
  obtain ⟨l⟩ := s
  have hparts := Bool.and_eq_true_iff.mp h
  have hlen : l.length = 12 := by simpa using hparts.1
  have hm : isinMatchAt l = true := hparts.2
  have hsearch : searchIsin l = some l := searchIsin_of_whole l hlen hm
  have hparse : parse_for_isin ⟨l⟩ = some ⟨l⟩ := by
    unfold parse_for_isin
    rw [hsearch]
    rfl
  have hsnd : (join_url base ⟨l⟩).2 = some ⟨l⟩ := by
    simp only [join_url, hparse]
  have hfst : (join_url base ⟨l⟩).1 = searchEndpoint ++ ⟨l⟩ := by
    simp only [join_url, hparse]
  refine ⟨?_, hsnd⟩
  rw [hfst]
  unfold parse_for_isin
  rw [string_data_append]
  have hpre : searchIsin (searchEndpoint.data ++ l) = searchIsin l := by
    apply searchIsin_append
    · decide
    · intro c hc
      have hl : searchEndpoint.data.getLast? = some '=' := by decide
      rw [hl] at hc
      injection hc with hc2
      rw [← hc2]
      decide
  show Option.map (fun cs => (⟨cs⟩ : String)) (searchIsin (searchEndpoint.data ++ l)) =
    some ⟨l⟩
  rw [hpre, hsearch]
  rfl

/-- C7 witness: round trip at the ISIN `"DE0007164600"`. -/
theorem c7_roundtrip_witness :
    isinWhole "DE0007164600" = true ∧
    parse_for_isin (join_url "https://www.finanzen.net/bilanz_guv/" "DE0007164600").1 =
      some "DE0007164600" ∧
    (join_url "https://www.finanzen.net/bilanz_guv/" "DE0007164600").2 =
      some "DE0007164600" :=
  ⟨by decide,
    (c7_roundtrip "https://www.finanzen.net/bilanz_guv/" "DE0007164600" (by decide)).1,
    (c7_roundtrip "https://www.finanzen.net/bilanz_guv/" "DE0007164600" (by decide)).2⟩

/-- C10: the estimates normalizer strips the minus sign (it keeps only
digits and commas), so a negative cell normalizes exactly like its
unsigned form, and a cell `-ip,fp` yields the nonnegative magnitude. -/
theorem c10_sign_stripped :
    (∀ s : String, s ≠ "" → s ≠ "-" →
      est_cell_value ("-" ++ s) = est_cell_value s) ∧
    (∀ ip fp : List Char, (∀ c ∈ ip, c.isDigit = true) →
      (∀ c ∈ fp, c.isDigit = true) → ip ≠ [] → fp ≠ [] →
      est_cell_value ⟨'-' :: (ip ++ ',' :: fp)⟩ =
        .ok (some ((natVal ip : ℚ) + (natVal fp : ℚ) / 10 ^ fp.length)) ∧
      0 ≤ (natVal ip : ℚ) + (natVal fp : ℚ) / 10 ^ fp.length) := by
  constructor
  · intro s hne hnd
    have hdata : ("-" ++ s).data = '-' :: s.data := by
      rw [string_data_append]
      rfl
    have hm : ("-" ++ s) ≠ "-" := by
      intro heq
      have hd := congrArg String.data heq
      rw [hdata] at hd
      have hnil : s.data = [] := by simpa using hd
      apply hne
      obtain ⟨l⟩ := s
      simpa using congrArg String.mk hnil
    have hk : keepDigitsComma ("-" ++ s) = keepDigitsComma s := by
      unfold keepDigitsComma
      rw [hdata, List.filter_cons]
      simp
    unfold est_cell_value
    rw [if_neg hm, if_neg hnd, hk]
  · intro ip fp hip hfp hipne hfpne
    have hs1 : (⟨'-' :: (ip ++ ',' :: fp)⟩ : String) ≠ "-" := by
      apply mk_ne_dash
      have h1 : 0 < ip.length := List.length_pos.mpr hipne
      simp only [List.length_cons, List.length_append]
      omega
    have hk : keepDigitsComma ⟨'-' :: (ip ++ ',' :: fp)⟩ = ⟨ip ++ ',' :: fp⟩ := by
      unfold keepDigitsComma
      show String.mk (List.filter _ ('-' :: (ip ++ ',' :: fp))) = _
      rw [List.filter_cons]
      simp only [List.filter_append, List.filter_cons,
        filter_digit_comma_digits ip hip, filter_digit_comma_digits fp hfp]
      rw [if_neg (by decide), if_pos (by decide)]
    have hval : 0 ≤ (natVal ip : ℚ) + (natVal fp : ℚ) / 10 ^ fp.length := by
      positivity
    refine ⟨?_, hval⟩
    unfold est_cell_value
    rw [if_neg hs1, hk, replaceComma_digits ip fp hip hfp,
      parseFloat_decimal ip fp hip hfp hipne]

/-- C10 witness: the cell `"-1,5"` loses its sign and normalizes to
`1.5`. -/
theorem c10_sign_stripped_witness :
    est_cell_value "-1,5" = est_cell_value "1,5" ∧
    est_cell_value "-1,5" = .ok (some ((3 : ℚ) / 2)) :=
  have h1 := c10_sign_stripped.1 "1,5" (by decide) (by decide)
  have h2 := (c10_sign_stripped.2 ['1'] ['5'] (by decide) (by decide)
    (by decide) (by decide)).1
  ⟨((by decide : ("-" ++ "1,5" : String) = "-1,5") ▸ h1),
    ((by decide : (⟨'-' :: (['1'] ++ ',' :: ['5'])⟩ : String) = "-1,5") ▸
      h2.trans (by decide))⟩

end Stocks
